import Mathlib

/-!
# Verification of the tomatocrab session state machine and aggregation engine

Shallow embedding of the core of `src/app.rs`, `src/session.rs` and
`src/components/session_list.rs` (a Rust pomodoro timer).  Rust `u32`
quantities are modelled as `Nat`; every `u32` subtraction in the sources
is guarded (or proved guarded) so truncated `Nat` subtraction agrees with
the machine arithmetic.  `std::time::Instant` values are modelled as `Nat`
seconds on a monotonic clock; `Instant::elapsed` saturates at zero in Rust,
which truncated `Nat` subtraction matches exactly.  Timestamps are taken at
whole-second granularity, so `Duration::as_secs` is the identity on the
modelled differences.  The host-local calendar-date conversion performed by
chrono (`with_timezone(&Local).date_naive()`) is modelled as an abstract
function `Nat → Int` from UTC timestamps to day numbers, supplied by the
environment.  The storage adapter (`src/storage.rs`) is modelled as the
list of persisted records plus success flags for its fallible operations.
-/

set_option maxHeartbeats 1000000
set_option maxRecDepth 4096

namespace Tomatocrab

/-- `TimerMode` from `src/app.rs`: what kind of timer is currently active. -/
inductive TimerMode where
  | Work
  | ShortBreak
  | LongBreak
deriving DecidableEq, Repr

/-- `AppState` from `src/app.rs`: the current state of the application. -/
inductive AppState where
  | Idle
  | EnteringTask
  | Running
  | Paused
  | WorkFinished
  | BreakFinished
deriving DecidableEq, Repr

/-- `View` from `src/app.rs`: the current view/tab being displayed. -/
inductive View where
  | Timer
  | History
  | Stats
deriving DecidableEq, Repr

/-- `View::next` from `src/app.rs`. -/
def View.next : View → View
  | .Timer => .History
  | .History => .Stats
  | .Stats => .Timer

/-- `View::prev` from `src/app.rs`. -/
def View.prev : View → View
  | .Timer => .Stats
  | .History => .Timer
  | .Stats => .History

/-- `SessionFilter` from `src/components/session_list.rs`. -/
inductive SessionFilter where
  | Today
  | Week
  | All
deriving DecidableEq, Repr

/-- `Action` from `src/action.rs`. -/
inductive Action where
  | Start
  | Pause
  | Resume
  | Stop
  | Quit
  | Tick
  | Input (c : Char)
  | Backspace
  | Confirm
  | Cancel
  | NextTab
  | PrevTab
  | CycleFilter
  | ScrollUp
  | ScrollDown
  | None
deriving DecidableEq, Repr

/-- `Session` from `src/session.rs`.  `id` models the `Uuid` (an opaque
identifier generated at creation), `started_at` the `DateTime<Utc>` as
seconds since the epoch. -/
structure Session where
  id : Nat
  task : String
  started_at : Nat
  duration_secs : Nat
  completed : Bool
deriving DecidableEq, Repr

/-- `Session::new` from `src/session.rs`; the fresh `Uuid::new_v4()` is
passed in explicitly. -/
def Session.new (id : Nat) (task : String) (started_at : Nat)
    (duration_secs : Nat) (completed : Bool) : Session :=
  { id := id, task := task, started_at := started_at,
    duration_secs := duration_secs, completed := completed }

/-- The ambient environment of one `handle_action` call: the clocks read via
`Instant::now()` / `Utc::now()`, the fresh record id, whether the storage
adapter's save and load succeed, and the host-local calendar-date view of
timestamps used by chrono's `with_timezone(&Local).date_naive()`. -/
structure Env where
  now : Nat
  utcNow : Nat
  freshId : Nat
  saveOk : Bool
  loadOk : Bool
  localDate : Nat → Int
  localToday : Int

/-- `App` from `src/app.rs`.  The `storage : Storage` field is modelled by
the list of records currently persisted on disk. -/
structure App where
  state : AppState
  should_quit : Bool
  total_duration_secs : Nat
  remaining_secs : Nat
  task_description : String
  session_start : Option Nat
  pause_start : Option Nat
  storage : List Session
  pomodoro_started_at : Option Nat
  current_view : View
  session_filter : SessionFilter
  sessions_cache : List Session
  history_selected : Nat
  timer_mode : TimerMode
  work_duration_secs : Nat
  short_break_secs : Nat
  long_break_secs : Nat
  sessions_until_long_break : Nat
  work_sessions_completed : Nat

/-- `App::new` from `src/app.rs`.  `storage0` is the prior content of the
record store; `loadOk` tells whether the initial `load_sessions` succeeds
(`unwrap_or_default` turns a failure into the empty list). -/
def App.new (duration_minutes short_break_minutes long_break_minutes
    long_break_interval : Nat) (storage0 : List Session) (loadOk : Bool) :
    App :=
  let duration_secs := duration_minutes * 60
  { state := .Idle
    should_quit := false
    total_duration_secs := duration_secs
    remaining_secs := duration_secs
    task_description := ""
    session_start := none
    pause_start := none
    storage := storage0
    pomodoro_started_at := none
    current_view := .Timer
    session_filter := .Week
    sessions_cache := if loadOk then storage0 else []
    history_selected := 0
    timer_mode := .Work
    work_duration_secs := duration_secs
    short_break_secs := short_break_minutes * 60
    long_break_secs := long_break_minutes * 60
    sessions_until_long_break := long_break_interval
    work_sessions_completed := 0 }

/-- Models Rust's `str::trim` (strip leading and trailing whitespace),
written structurally over the character list so that concrete executions
reduce in the kernel (core's `String.trim` does not). -/
def rustTrim (s : String) : String :=
  String.mk
    (((s.data.dropWhile Char.isWhitespace).reverse.dropWhile
        Char.isWhitespace).reverse)

/-- Result of one `handle_action` call on `&mut self`: the mutated `App`,
the records handed to `Storage::save_session` during the call (`saved`),
and whether the call returned `Ok(())` (`ok`; a `false` means the `?` on a
failed save propagated an error to the caller). -/
structure StepResult where
  app : App
  saved : List Session
  ok : Bool

/-- A step that saves nothing and succeeds. -/
def noEffect (a : App) : StepResult := { app := a, saved := [], ok := true }

/-- `App::save_current_session` from `src/app.rs`.  A record is built and
handed to `Storage::save_session` only when `pomodoro_started_at` is set and
the trimmed task is non-empty; `env.saveOk` tells whether the disk write
succeeds (on failure the storage list is unchanged and the error is
returned). -/
def App.save_current_session (a : App) (completed : Bool) (env : Env) :
    StepResult :=
  match a.pomodoro_started_at with
  | some started_at =>
      if ¬(rustTrim a.task_description = "") then
        let duration_secs := a.total_duration_secs - a.remaining_secs
        let session := Session.new env.freshId a.task_description started_at
          duration_secs completed
        if env.saveOk then
          { app := { a with storage := a.storage ++ [session] },
            saved := [session], ok := true }
        else
          { app := a, saved := [session], ok := false }
      else noEffect a
  | none => noEffect a

/-- `App::refresh_sessions` from `src/app.rs` (`unwrap_or_default` turns a
failed load into the empty list). -/
def App.refresh_sessions (a : App) (env : Env) : App :=
  { a with sessions_cache := if env.loadOk then a.storage else [] }

/-- `App::reset` from `src/app.rs`. -/
def App.reset (a : App) (env : Env) : App :=
  App.refresh_sessions
    { a with state := .Idle
             timer_mode := .Work
             total_duration_secs := a.work_duration_secs
             remaining_secs := a.work_duration_secs
             task_description := ""
             session_start := none
             pause_start := none
             pomodoro_started_at := none } env

/-- `App::start_work_timer` from `src/app.rs`. -/
def App.start_work_timer (a : App) (env : Env) : App :=
  { a with timer_mode := .Work
           total_duration_secs := a.work_duration_secs
           remaining_secs := a.work_duration_secs
           session_start := some env.now
           pomodoro_started_at := some env.utcNow
           state := .Running }

/-- `App::start_break` from `src/app.rs`: pick a long break exactly when
`work_sessions_completed >= sessions_until_long_break`, resetting the
counter in that case. -/
def App.start_break (a : App) (env : Env) : App :=
  let a :=
    if a.sessions_until_long_break ≤ a.work_sessions_completed then
      { a with timer_mode := .LongBreak
               total_duration_secs := a.long_break_secs
               work_sessions_completed := 0 }
    else
      { a with timer_mode := .ShortBreak
               total_duration_secs := a.short_break_secs }
  { a with remaining_secs := a.total_duration_secs
           session_start := some env.now
           state := .Running }

/-- `App::update_timer` from `src/app.rs`.  `Instant::elapsed` is the
saturating difference `env.now - start`; the save error on completion is
discarded (`let _ = ...`). -/
def App.update_timer (a : App) (env : Env) : StepResult :=
  match a.session_start with
  | some start =>
      let elapsed := env.now - start
      if a.total_duration_secs ≤ elapsed then
        let a1 := { a with remaining_secs := 0 }
        if a1.timer_mode = .Work then
          let a2 := { a1 with state := .WorkFinished
                              work_sessions_completed :=
                                a1.work_sessions_completed + 1 }
          let r := a2.save_current_session true env
          { app := r.app.refresh_sessions env, saved := r.saved, ok := true }
        else
          noEffect { a1 with state := .BreakFinished }
      else
        noEffect { a with remaining_secs := a.total_duration_secs - elapsed }
  | none => noEffect a

/-- The filtering predicate shared verbatim by `App::filtered_sessions`,
`SessionListWidget::filtered_sessions`, `display_sessions` and `show_stats`:
keep a session whose host-local calendar date matches the filter relative to
`today`. -/
def session_matches_filter (localDate : Nat → Int) (today : Int)
    (filter : SessionFilter) (s : Session) : Bool :=
  let session_date := localDate s.started_at
  match filter with
  | .Today => decide (session_date = today)
  | .Week =>
      let week_ago := today - 7
      decide (week_ago ≤ session_date)
  | .All => true

/-- `App::filtered_sessions` from `src/app.rs` (`today` and the local-date
conversion come from the host clock in the environment). -/
def App.filtered_sessions (a : App) (env : Env) : List Session :=
  a.sessions_cache.filter
    (session_matches_filter env.localDate env.localToday a.session_filter)

/-- The filtering step of `display_sessions` from
`src/components/session_list.rs` (the subsequent printing is presentation
only). -/
def display_sessions_filtered (sessions : List Session)
    (filter : SessionFilter) (localDate : Nat → Int) (today : Int) :
    List Session :=
  sessions.filter (session_matches_filter localDate today filter)

/-- `App::focus_time_for_date` from `src/app.rs`. -/
def App.focus_time_for_date (a : App) (env : Env) (date : Int) : Nat :=
  ((a.sessions_cache.filter
      (fun s => decide (env.localDate s.started_at = date))).map
    (fun s => s.duration_secs)).sum

/-- `App::daily_focus_data` from `src/app.rs`: focus seconds for the past 7
days, oldest to newest (`(0..7).rev()` yields `days_ago = 6, 5, ..., 0`). -/
def App.daily_focus_data (a : App) (env : Env) : List Nat :=
  ((List.range 7).reverse).map
    (fun days_ago => a.focus_time_for_date env (env.localToday - days_ago))

/-- `SessionStats` from `src/components/session_list.rs`. -/
structure SessionStats where
  total_sessions : Nat
  completed_sessions : Nat
  interrupted_sessions : Nat
  total_focus_time_secs : Nat
  average_duration_secs : Nat
deriving DecidableEq, Repr

/-- `SessionStats::from_sessions` from `src/components/session_list.rs`. -/
def SessionStats.from_sessions (sessions : List Session) : SessionStats :=
  let total_sessions := sessions.length
  let completed_sessions := (sessions.filter (fun s => s.completed)).length
  let interrupted_sessions := total_sessions - completed_sessions
  let total_focus_time_secs := (sessions.map (fun s => s.duration_secs)).sum
  let average_duration_secs :=
    if 0 < total_sessions then total_focus_time_secs / total_sessions else 0
  { total_sessions := total_sessions
    completed_sessions := completed_sessions
    interrupted_sessions := interrupted_sessions
    total_focus_time_secs := total_focus_time_secs
    average_duration_secs := average_duration_secs }

/-- `App::elapsed_secs` from `src/app.rs`. -/
def App.elapsed_secs (a : App) : Nat :=
  a.total_duration_secs - a.remaining_secs

/-- `App::next_view` from `src/app.rs`. -/
def App.next_view (a : App) (env : Env) : App :=
  let a := { a with current_view := a.current_view.next }
  let a := if a.current_view ≠ .Timer then a.refresh_sessions env else a
  { a with history_selected := 0 }

/-- `App::prev_view` from `src/app.rs`. -/
def App.prev_view (a : App) (env : Env) : App :=
  let a := { a with current_view := a.current_view.prev }
  let a := if a.current_view ≠ .Timer then a.refresh_sessions env else a
  { a with history_selected := 0 }

/-- `App::cycle_filter` from `src/app.rs`. -/
def App.cycle_filter (a : App) : App :=
  { a with session_filter :=
             match a.session_filter with
             | .Today => .Week
             | .Week => .All
             | .All => .Today
           history_selected := 0 }

/-- `App::handle_action` from `src/app.rs`.  The Rust function is a single
ordered `match` on `(state, action)` pairs; every arm fixes the `Action`
constructor, so the arms are regrouped here by action with the per-state
dispatch nested inside, which preserves first-match semantics.  Character
arms (`'q' | 'Q'` etc.) become ordered if-chains. -/
def App.handle_action (a : App) (action : Action) (env : Env) : StepResult :=
  match action with
  | .NextTab =>
      -- Rust arm: (Idle|Running|Paused|WorkFinished|BreakFinished, NextTab)
      if a.state = .EnteringTask then noEffect a
      else noEffect (a.next_view env)
  | .PrevTab =>
      if a.state = .EnteringTask then noEffect a
      else noEffect (a.prev_view env)
  | .ScrollUp =>
      noEffect
        (if a.current_view = .History ∧ 0 < a.history_selected then
          { a with history_selected := a.history_selected - 1 }
        else a)
  | .ScrollDown =>
      noEffect
        (if a.current_view = .History then
          let maxSel := (a.filtered_sessions env).length - 1
          if a.history_selected < maxSel then
            { a with history_selected := a.history_selected + 1 }
          else a
        else a)
  | .Confirm =>
      match a.state with
      | .Idle =>
          noEffect
            (if a.current_view = .Timer then
              { a with state := .EnteringTask, task_description := "" }
            else a)
      | .EnteringTask =>
          if ¬(rustTrim a.task_description = "") then
            noEffect (a.start_work_timer env)
          else noEffect a
      | .WorkFinished =>
          noEffect { a with timer_mode := .Work
                            total_duration_secs := a.work_duration_secs
                            remaining_secs := a.work_duration_secs
                            state := .EnteringTask
                            task_description := "" }
      | .BreakFinished =>
          noEffect { a with timer_mode := .Work
                            total_duration_secs := a.work_duration_secs
                            remaining_secs := a.work_duration_secs
                            state := .EnteringTask
                            task_description := "" }
      | _ => noEffect a
  | .Input c =>
      match a.state with
      | .Idle =>
          if c = 'q' ∨ c = 'Q' then noEffect { a with should_quit := true }
          else if c = 'f' ∨ c = 'F' then
            if a.current_view = .History ∨ a.current_view = .Stats then
              noEffect a.cycle_filter
            else if a.current_view = .Timer then
              noEffect { a with state := .EnteringTask,
                                task_description := "".push c }
            else noEffect a
          else if a.current_view = .Timer then
            noEffect { a with state := .EnteringTask,
                              task_description := "".push c }
          else noEffect a
      | .EnteringTask =>
          noEffect { a with task_description := a.task_description.push c }
      | .Running =>
          if c = ' ' then
            if a.timer_mode = .Work then
              noEffect { a with pause_start := some env.now,
                                state := .Paused }
            else noEffect a
          else if c = 's' ∨ c = 'S' then
            if ¬(a.timer_mode = .Work) then
              noEffect { a with state := .BreakFinished }
            else noEffect a
          else if c = 'r' ∨ c = 'R' then
            if a.timer_mode = .Work then
              let r := a.save_current_session false env
              if r.ok then
                { app := r.app.reset env, saved := r.saved, ok := true }
              else
                { app := r.app, saved := r.saved, ok := false }
            else noEffect (a.reset env)
          else if c = 'q' ∨ c = 'Q' then
            if a.timer_mode = .Work then
              let r := a.save_current_session false env
              if r.ok then
                { app := { r.app with should_quit := true },
                  saved := r.saved, ok := true }
              else
                { app := r.app, saved := r.saved, ok := false }
            else noEffect { a with should_quit := true }
          else if c = 'f' ∨ c = 'F' then
            if a.current_view = .History ∨ a.current_view = .Stats then
              noEffect a.cycle_filter
            else noEffect a
          else noEffect a
      | .Paused =>
          if c = ' ' then
            let a' :=
              match a.pause_start, a.session_start with
              | some pause_start, some session_start =>
                  let pause_duration := env.now - pause_start
                  { a with session_start :=
                             some (session_start + pause_duration) }
              | _, _ => a
            noEffect { a' with pause_start := none, state := .Running }
          else if c = 'r' ∨ c = 'R' then
            let r := a.save_current_session false env
            if r.ok then
              { app := r.app.reset env, saved := r.saved, ok := true }
            else
              { app := r.app, saved := r.saved, ok := false }
          else if c = 'q' ∨ c = 'Q' then
            let r := a.save_current_session false env
            if r.ok then
              { app := { r.app with should_quit := true },
                saved := r.saved, ok := true }
            else
              { app := r.app, saved := r.saved, ok := false }
          else if c = 'f' ∨ c = 'F' then
            if a.current_view = .History ∨ a.current_view = .Stats then
              noEffect a.cycle_filter
            else noEffect a
          else noEffect a
      | .WorkFinished =>
          if c = 'b' ∨ c = 'B' then noEffect (a.start_break env)
          else if c = 's' ∨ c = 'S' then noEffect (a.reset env)
          else if c = 'q' ∨ c = 'Q' then
            noEffect { a with should_quit := true }
          else if c = 'f' ∨ c = 'F' then
            if a.current_view = .History ∨ a.current_view = .Stats then
              noEffect a.cycle_filter
            else noEffect a
          else noEffect a
      | .BreakFinished =>
          if c = 's' ∨ c = 'S' then noEffect (a.reset env)
          else if c = 'q' ∨ c = 'Q' then
            noEffect { a with should_quit := true }
          else if c = 'f' ∨ c = 'F' then
            if a.current_view = .History ∨ a.current_view = .Stats then
              noEffect a.cycle_filter
            else noEffect a
          else noEffect a
  | .Backspace =>
      match a.state with
      | .EnteringTask =>
          noEffect { a with task_description := a.task_description.dropRight 1 }
      | _ => noEffect a
  | .Cancel =>
      match a.state with
      | .EnteringTask =>
          noEffect { a with task_description := "", state := .Idle }
      | _ => noEffect a
  | .Tick =>
      match a.state with
      | .Running => a.update_timer env
      | _ => noEffect a
  | _ => noEffect a

/-- Run a list of `(action, environment)` steps from a state, collecting all
records handed to storage, as the main loop in `src/main.rs` does. -/
def App.run (a : App) (steps : List (Action × Env)) : App × List Session :=
  steps.foldl
    (fun p step =>
      let r := p.1.handle_action step.1 step.2
      (r.app, p.2 ++ r.saved))
    (a, [])

/-- States reachable from some `App::new` initial state by any sequence of
`handle_action` calls under arbitrary environments. -/
inductive Reachable : App → Prop
  | init (dm sbm lbm lbi : Nat) (storage0 : List Session) (loadOk : Bool) :
      Reachable (App.new dm sbm lbm lbi storage0 loadOk)
  | step (a : App) (action : Action) (env : Env) :
      Reachable a → Reachable (a.handle_action action env).app

/-! ## Helper lemmas about the state-machine building blocks -/

@[simp] theorem noEffect_app (a : App) : (noEffect a).app = a := rfl

@[simp] theorem noEffect_saved (a : App) : (noEffect a).saved = [] := rfl

@[simp] theorem noEffect_ok (a : App) : (noEffect a).ok = true := rfl

@[simp] theorem save_state (a : App) (b : Bool) (env : Env) :
    (a.save_current_session b env).app.state = a.state := by
  unfold App.save_current_session
  cases hpom : a.pomodoro_started_at <;> simp only [hpom] <;>
    (try split_ifs) <;> rfl

@[simp] theorem save_should_quit (a : App) (b : Bool) (env : Env) :
    (a.save_current_session b env).app.should_quit = a.should_quit := by
  unfold App.save_current_session
  cases hpom : a.pomodoro_started_at <;> simp only [hpom] <;>
    (try split_ifs) <;> rfl

@[simp] theorem save_timer_mode (a : App) (b : Bool) (env : Env) :
    (a.save_current_session b env).app.timer_mode = a.timer_mode := by
  unfold App.save_current_session
  cases hpom : a.pomodoro_started_at <;> simp only [hpom] <;>
    (try split_ifs) <;> rfl

@[simp] theorem save_total (a : App) (b : Bool) (env : Env) :
    (a.save_current_session b env).app.total_duration_secs =
      a.total_duration_secs := by
  unfold App.save_current_session
  cases hpom : a.pomodoro_started_at <;> simp only [hpom] <;>
    (try split_ifs) <;> rfl

@[simp] theorem save_remaining (a : App) (b : Bool) (env : Env) :
    (a.save_current_session b env).app.remaining_secs = a.remaining_secs := by
  unfold App.save_current_session
  cases hpom : a.pomodoro_started_at <;> simp only [hpom] <;>
    (try split_ifs) <;> rfl

@[simp] theorem save_task (a : App) (b : Bool) (env : Env) :
    (a.save_current_session b env).app.task_description =
      a.task_description := by
  unfold App.save_current_session
  cases hpom : a.pomodoro_started_at <;> simp only [hpom] <;>
    (try split_ifs) <;> rfl

@[simp] theorem save_session_start (a : App) (b : Bool) (env : Env) :
    (a.save_current_session b env).app.session_start = a.session_start := by
  unfold App.save_current_session
  cases hpom : a.pomodoro_started_at <;> simp only [hpom] <;>
    (try split_ifs) <;> rfl

@[simp] theorem save_pause_start (a : App) (b : Bool) (env : Env) :
    (a.save_current_session b env).app.pause_start = a.pause_start := by
  unfold App.save_current_session
  cases hpom : a.pomodoro_started_at <;> simp only [hpom] <;>
    (try split_ifs) <;> rfl

@[simp] theorem save_pomodoro (a : App) (b : Bool) (env : Env) :
    (a.save_current_session b env).app.pomodoro_started_at =
      a.pomodoro_started_at := by
  unfold App.save_current_session
  cases hpom : a.pomodoro_started_at <;> simp only [hpom] <;>
    (try split_ifs) <;> first | rfl | exact hpom

@[simp] theorem save_wsc (a : App) (b : Bool) (env : Env) :
    (a.save_current_session b env).app.work_sessions_completed =
      a.work_sessions_completed := by
  unfold App.save_current_session
  cases hpom : a.pomodoro_started_at <;> simp only [hpom] <;>
    (try split_ifs) <;> rfl

@[simp] theorem save_work_duration (a : App) (b : Bool) (env : Env) :
    (a.save_current_session b env).app.work_duration_secs =
      a.work_duration_secs := by
  unfold App.save_current_session
  cases hpom : a.pomodoro_started_at <;> simp only [hpom] <;>
    (try split_ifs) <;> rfl

@[simp] theorem save_sessions_until (a : App) (b : Bool) (env : Env) :
    (a.save_current_session b env).app.sessions_until_long_break =
      a.sessions_until_long_break := by
  unfold App.save_current_session
  cases hpom : a.pomodoro_started_at <;> simp only [hpom] <;>
    (try split_ifs) <;> rfl

theorem save_saved_length (a : App) (b : Bool) (env : Env) :
    (a.save_current_session b env).saved.length ≤ 1 := by
  unfold App.save_current_session
  cases hpom : a.pomodoro_started_at <;> simp only [hpom] <;>
    (try split_ifs) <;> simp

theorem save_saved_ne_nil (a : App) (b : Bool) (env : Env) :
    (a.save_current_session b env).saved ≠ [] ↔
      a.pomodoro_started_at.isSome = true ∧
        ¬rustTrim a.task_description = "" := by
  unfold App.save_current_session
  cases hpom : a.pomodoro_started_at <;> simp only [hpom] <;>
    (try split_ifs) <;> simp_all

theorem save_ok_false (a : App) (b : Bool) (env : Env) :
    (a.save_current_session b env).ok = false ↔
      env.saveOk = false ∧ a.pomodoro_started_at.isSome = true ∧
        ¬rustTrim a.task_description = "" := by
  unfold App.save_current_session
  cases hpom : a.pomodoro_started_at <;> simp only [hpom] <;>
    (try split_ifs) <;> simp_all

theorem save_fail_app (a : App) (b : Bool) (env : Env)
    (h : (a.save_current_session b env).ok = false) :
    (a.save_current_session b env).app = a := by
  unfold App.save_current_session at h ⊢
  cases hpom : a.pomodoro_started_at <;> simp only [hpom] at h ⊢ <;>
    (try split_ifs at h ⊢) <;> simp_all

theorem update_timer_quit (a : App) (env : Env) :
    (a.update_timer env).app.should_quit = a.should_quit := by
  unfold App.update_timer
  cases hss : a.session_start <;> simp only [hss] <;> (try split_ifs) <;>
    simp [App.refresh_sessions]

theorem update_timer_total (a : App) (env : Env) :
    (a.update_timer env).app.total_duration_secs = a.total_duration_secs := by
  unfold App.update_timer
  cases hss : a.session_start <;> simp only [hss] <;> (try split_ifs) <;>
    simp [App.refresh_sessions]

theorem update_timer_mode (a : App) (env : Env) :
    (a.update_timer env).app.timer_mode = a.timer_mode := by
  unfold App.update_timer
  cases hss : a.session_start <;> simp only [hss] <;> (try split_ifs) <;>
    simp [App.refresh_sessions]

theorem update_timer_ok (a : App) (env : Env) :
    (a.update_timer env).ok = true := by
  unfold App.update_timer
  cases hss : a.session_start <;> simp only [hss] <;> (try split_ifs) <;> rfl

theorem update_timer_saved_length (a : App) (env : Env) :
    (a.update_timer env).saved.length ≤ 1 := by
  unfold App.update_timer
  cases hss : a.session_start <;> simp only [hss] <;> (try split_ifs) <;>
    first | exact save_saved_length _ _ _ | simp

theorem update_timer_wsc_ge (a : App) (env : Env) :
    a.work_sessions_completed ≤
      (a.update_timer env).app.work_sessions_completed := by
  unfold App.update_timer
  cases hss : a.session_start <;> simp only [hss] <;> (try split_ifs) <;>
    simp [App.refresh_sessions]

theorem update_timer_remInv (a : App) (env : Env)
    (h : a.remaining_secs ≤ a.total_duration_secs) :
    (a.update_timer env).app.remaining_secs ≤
      (a.update_timer env).app.total_duration_secs := by
  unfold App.update_timer
  cases hss : a.session_start <;> simp only [hss] <;> (try split_ifs) <;>
    simp [App.refresh_sessions] <;> omega

theorem update_timer_cases (a : App) (env : Env) :
    ((a.update_timer env).app.state = a.state ∧
      (a.update_timer env).saved = [] ∧
      (a.update_timer env).app.work_sessions_completed =
        a.work_sessions_completed) ∨
    ((a.update_timer env).app.state = .WorkFinished ∧ a.timer_mode = .Work ∧
      (a.update_timer env).app.work_sessions_completed =
        a.work_sessions_completed + 1) ∨
    ((a.update_timer env).app.state = .BreakFinished ∧
      ¬a.timer_mode = .Work ∧ (a.update_timer env).saved = []) := by
  unfold App.update_timer
  cases hss : a.session_start <;> simp only [hss] <;> (try split_ifs) <;>
    simp_all [App.refresh_sessions]

theorem update_timer_saved_ne_nil (a : App) (env : Env) :
    (a.update_timer env).saved ≠ [] ↔
      (∃ s, a.session_start = some s ∧
          a.total_duration_secs ≤ env.now - s) ∧
        a.timer_mode = .Work ∧ a.pomodoro_started_at.isSome = true ∧
        ¬rustTrim a.task_description = "" := by
  unfold App.update_timer
  cases hss : a.session_start <;> simp only [hss] <;> (try split_ifs) <;>
    simp_all [save_saved_ne_nil]

theorem update_timer_task (a : App) (env : Env) :
    (a.update_timer env).app.task_description = a.task_description := by
  unfold App.update_timer
  cases hss : a.session_start <;> simp only [hss] <;> (try split_ifs) <;>
    simp [App.refresh_sessions]

theorem update_timer_pom (a : App) (env : Env) :
    (a.update_timer env).app.pomodoro_started_at =
      a.pomodoro_started_at := by
  unfold App.update_timer
  cases hss : a.session_start <;> simp only [hss] <;> (try split_ifs) <;>
    simp [App.refresh_sessions]

/-- `handle_action` preserves `remaining_secs ≤ total_duration_secs`. -/
theorem remInv_step (a : App) (action : Action) (env : Env)
    (h : a.remaining_secs ≤ a.total_duration_secs) :
    (a.handle_action action env).app.remaining_secs ≤
      (a.handle_action action env).app.total_duration_secs := by
  obtain ⟨st, sq, tot, rem, task, ss, ps, stor, pom, cv, sf, sc, hsel, tm,
    wd, sb, lb, sul, wsc⟩ := a
  simp only at h
  cases action <;> cases st <;>
    simp only [App.handle_action] <;>
    (try split_ifs) <;>
    (try repeat' split) <;>
    first
      | exact h
      | exact update_timer_remInv _ _ h
      | (simp only [App.reset, App.refresh_sessions, App.start_break,
           App.start_work_timer, App.next_view, App.prev_view,
           App.cycle_filter, noEffect]
         repeat' split
         all_goals simp [h])

/-- The inductive invariant feeding the persistence characterisation: in
`Running(Work)` the task is (trimmed) non-empty and the pomodoro start is
recorded, and `Paused` is only ever entered from a work interval with the
same properties. -/
def runInv (a : App) : Prop :=
  (a.state = .Running → a.timer_mode = .Work →
     ¬rustTrim a.task_description = "" ∧ a.pomodoro_started_at.isSome = true) ∧
  (a.state = .Paused →
     a.timer_mode = .Work ∧ ¬rustTrim a.task_description = "" ∧
       a.pomodoro_started_at.isSome = true)

theorem update_timer_runInv (a : App) (env : Env) (h : runInv a) :
    runInv (a.update_timer env).app := by
  obtain ⟨hR, hP⟩ := h
  have ht := update_timer_task a env
  have hp := update_timer_pom a env
  have hm := update_timer_mode a env
  rcases update_timer_cases a env with ⟨hs, -, -⟩ | ⟨hs, -, -⟩ | ⟨hs, -, -⟩ <;>
    constructor <;> rw [hs, ht, hp, hm] <;> simp_all

/-- `handle_action` preserves `runInv`. -/
theorem runInv_step (a : App) (action : Action) (env : Env)
    (h : runInv a) : runInv (a.handle_action action env).app := by
  obtain ⟨hR, hP⟩ := h
  obtain ⟨st, sq, tot, rem, task, ss, ps, stor, pom, cv, sf, sc, hsel, tm,
    wd, sb, lb, sul, wsc⟩ := a
  simp only at hR hP
  cases action <;> cases st <;>
    simp only [App.handle_action] <;>
    (try split_ifs) <;>
    (try repeat' split) <;>
    first
      | exact ⟨hR, hP⟩
      | exact update_timer_runInv _ _ ⟨hR, hP⟩
      | (simp only [runInv, App.reset, App.refresh_sessions, App.start_break,
           App.start_work_timer, App.next_view, App.prev_view,
           App.cycle_filter, noEffect]
         repeat' split
         all_goals simp_all)

/-- Exact characterisation, under `runInv`, of the steps that hand a record
to storage: stop/quit/completion of a work interval, from `Running` or
`Paused`. -/
theorem saved_characterization (a : App) (action : Action) (env : Env)
    (h : runInv a) :
    (a.handle_action action env).saved ≠ [] ↔
      ¬rustTrim a.task_description = "" ∧
      ((a.state = .Running ∧ a.timer_mode = .Work ∧
          ((∃ c, action = .Input c ∧
              (c = 'r' ∨ c = 'R' ∨ c = 'q' ∨ c = 'Q')) ∨
           (action = .Tick ∧ ∃ s, a.session_start = some s ∧
              a.total_duration_secs ≤ env.now - s))) ∨
       (a.state = .Paused ∧
          ∃ c, action = .Input c ∧
            (c = 'r' ∨ c = 'R' ∨ c = 'q' ∨ c = 'Q'))) := by
  obtain ⟨hR, hP⟩ := h
  obtain ⟨st, sq, tot, rem, task, ss, ps, stor, pom, cv, sf, sc, hsel, tm,
    wd, sb, lb, sul, wsc⟩ := a
  simp only at hR hP
  cases action <;> cases st <;>
    simp only [App.handle_action] <;>
    (try split_ifs) <;>
    (try repeat' split) <;>
    first
      | (simp_all [save_saved_ne_nil, update_timer_saved_ne_nil]
         try first
           | tauto
           | (casesm* _ ∨ _ <;> subst_vars <;> decide)
         done)
      | (simp only [App.reset, App.refresh_sessions, App.start_break,
           App.start_work_timer, App.next_view, App.prev_view,
           App.cycle_filter, noEffect]
         repeat' split
         all_goals simp_all)

/-- No single `handle_action` call hands more than one record to storage. -/
theorem handle_action_saved_length (a : App) (action : Action) (env : Env) :
    (a.handle_action action env).saved.length ≤ 1 := by
  obtain ⟨st, sq, tot, rem, task, ss, ps, stor, pom, cv, sf, sc, hsel, tm,
    wd, sb, lb, sul, wsc⟩ := a
  cases action <;> cases st <;>
    simp only [App.handle_action] <;>
    (try split_ifs) <;>
    (try repeat' split) <;>
    first
      | exact save_saved_length _ _ _
      | exact update_timer_saved_length _ _
      | simp

/-- Potential function: 1 while the current work interval can still emit a
persist effect (running or paused work, quit flag not set), 0 otherwise. -/
def persistBudget (a : App) : Nat :=
  if a.should_quit = false ∧
      ((a.state = .Running ∧ a.timer_mode = .Work) ∨ a.state = .Paused) then 1
  else 0

theorem update_timer_budget (a : App) (env : Env)
    (hq : a.should_quit = false) (hst : a.state = .Running) :
    (a.update_timer env).saved.length +
        persistBudget (a.update_timer env).app ≤ persistBudget a := by
  have hlen := update_timer_saved_length a env
  have hquit := update_timer_quit a env
  have hmode := update_timer_mode a env
  rcases update_timer_cases a env with ⟨hs, henil, -⟩ | ⟨hs, hw, -⟩ |
      ⟨hs, -, henil⟩
  · simp [persistBudget, hquit, hq, hs, hmode, henil]
  · simp only [persistBudget, hquit, hq, hs, hmode, hst, hw]
    simp
    omega
  · simp [persistBudget, hquit, hq, hs, hmode, henil, hst]

/-- The potential decreases by at least the number of records emitted at
each successful step; only the guarded work-start (`EnteringTask` +
`Confirm`) can raise it, by exactly one. -/
theorem persistBudget_step (a : App) (action : Action) (env : Env)
    (hq : a.should_quit = false)
    (hok : (a.handle_action action env).ok = true) :
    (a.handle_action action env).saved.length +
        persistBudget (a.handle_action action env).app ≤
      persistBudget a +
        (if a.state = .EnteringTask ∧ action = .Confirm then 1 else 0) := by
  obtain ⟨st, sq, tot, rem, task, ss, ps, stor, pom, cv, sf, sc, hsel, tm,
    wd, sb, lb, sul, wsc⟩ := a
  simp only at hq
  subst hq
  cases action <;> cases st <;>
    simp only [App.handle_action] at hok ⊢ <;>
    (try split_ifs) <;>
    (try repeat' split) <;>
    first
      | exact update_timer_budget _ _ rfl rfl
      | (clear hok
         have hlen := save_saved_length
           { state := AppState.Running, should_quit := false,
             total_duration_secs := tot, remaining_secs := rem,
             task_description := task, session_start := ss, pause_start := ps,
             storage := stor, pomodoro_started_at := pom, current_view := cv,
             session_filter := sf, sessions_cache := sc,
             history_selected := hsel, timer_mode := TimerMode.Work,
             work_duration_secs := wd, short_break_secs := sb,
             long_break_secs := lb, sessions_until_long_break := sul,
             work_sessions_completed := wsc } false env
         simp_all [persistBudget, App.reset, App.refresh_sessions]
         try omega
         done)
      | (clear hok
         have hlen := save_saved_length
           { state := AppState.Paused, should_quit := false,
             total_duration_secs := tot, remaining_secs := rem,
             task_description := task, session_start := ss, pause_start := ps,
             storage := stor, pomodoro_started_at := pom, current_view := cv,
             session_filter := sf, sessions_cache := sc,
             history_selected := hsel, timer_mode := tm,
             work_duration_secs := wd, short_break_secs := sb,
             long_break_secs := lb, sessions_until_long_break := sul,
             work_sessions_completed := wsc } false env
         simp_all [persistBudget, App.reset, App.refresh_sessions]
         try omega
         done)
      | (clear hok
         simp only [persistBudget, App.reset, App.refresh_sessions,
           App.start_break, App.start_work_timer, App.next_view,
           App.prev_view, App.cycle_filter, noEffect]
         repeat' split
         all_goals try simp_all
         all_goals omega)
      | (simp_all
         done)

/-- Every reachable state satisfies the remaining-time invariant. -/
theorem remInv_reachable (a : App) (h : Reachable a) :
    a.remaining_secs ≤ a.total_duration_secs := by
  induction h with
  | init dm sbm lbm lbi storage0 loadOk => simp [App.new]
  | step b action env _ ih => exact remInv_step b action env ih

/-- Every reachable state satisfies `runInv`. -/
theorem runInv_reachable (a : App) (h : Reachable a) : runInv a := by
  induction h with
  | init dm sbm lbm lbi storage0 loadOk => simp [runInv, App.new]
  | step b action env _ ih => exact runInv_step b action env ih

theorem update_timer_wsc_ge_of_eq (a : App) (env : Env) (w : Nat)
    (hw : w = a.work_sessions_completed) :
    w ≤ (a.update_timer env).app.work_sessions_completed :=
  hw ▸ update_timer_wsc_ge a env

/-- Counter monotonicity: every step other than a long-break selection in
`WorkFinished` leaves `work_sessions_completed` no smaller. -/
theorem wsc_monotone (a : App) (action : Action) (env : Env)
    (hno : ¬(a.state = .WorkFinished ∧ ∃ c, action = .Input c ∧
        (c = 'b' ∨ c = 'B') ∧
        a.sessions_until_long_break ≤ a.work_sessions_completed)) :
    a.work_sessions_completed ≤
      (a.handle_action action env).app.work_sessions_completed := by
  obtain ⟨st, sq, tot, rem, task, ss, ps, stor, pom, cv, sf, sc, hsel, tm,
    wd, sb, lb, sul, wsc⟩ := a
  simp only at hno
  cases action <;> cases st <;>
    simp only [App.handle_action] <;>
    (try split_ifs) <;>
    (try repeat' split) <;>
    first
      | exact update_timer_wsc_ge_of_eq _ _ _ rfl
      | (simp only [App.reset, App.refresh_sessions, App.start_break,
           App.start_work_timer, App.next_view, App.prev_view,
           App.cycle_filter, noEffect]
         repeat' split
         all_goals simp_all
         all_goals omega)

/-- The only error exits of `handle_action` are persist failures on the
stop/quit keys in `Running(Work)` or `Paused`, and in those cases the state
is returned entirely unchanged. -/
theorem handle_action_error_spec (a : App) (action : Action) (env : Env)
    (hok : (a.handle_action action env).ok = false) :
    env.saveOk = false ∧ (a.handle_action action env).app = a ∧
      ((a.state = .Running ∧ a.timer_mode = .Work) ∨ a.state = .Paused) ∧
      (∃ c, action = .Input c ∧
        (c = 'r' ∨ c = 'R' ∨ c = 'q' ∨ c = 'Q')) := by
  obtain ⟨st, sq, tot, rem, task, ss, ps, stor, pom, cv, sf, sc, hsel, tm,
    wd, sb, lb, sul, wsc⟩ := a
  cases action <;> cases st <;>
    simp only [App.handle_action] at hok ⊢ <;>
    (try split_ifs) <;>
    (try repeat' split) <;>
    first
      | (simp_all [update_timer_ok, save_ok_false, save_fail_app]
         try first
           | tauto
           | (casesm* _ ∨ _ <;> subst_vars <;> decide)
         done)
      | (exfalso
         simp only [App.reset, App.refresh_sessions, App.start_break,
           App.start_work_timer, App.next_view, App.prev_view,
           App.cycle_filter, noEffect] at hok
         repeat' split at hok
         all_goals simp_all)

/-- `Action` variants with no arm in `handle_action` are ignored. -/
theorem unhandled_action_noop (a : App) (action : Action) (env : Env)
    (h : action = .Start ∨ action = .Pause ∨ action = .Resume ∨
      action = .Stop ∨ action = .Quit ∨ action = .CycleFilter ∨
      action = .None) :
    a.handle_action action env = noEffect a := by
  rcases h with h|h|h|h|h|h|h <;> subst h <;> rfl

/-- A `Tick` outside `Running` is ignored. -/
theorem tick_outside_running_noop (a : App) (env : Env)
    (h : ¬a.state = .Running) :
    a.handle_action .Tick env = noEffect a := by
  unfold App.handle_action
  cases hst : a.state <;> simp_all

theorem daily_focus_data_eq (a : App) (env : Env) :
    a.daily_focus_data env =
      [a.focus_time_for_date env (env.localToday - 6),
       a.focus_time_for_date env (env.localToday - 5),
       a.focus_time_for_date env (env.localToday - 4),
       a.focus_time_for_date env (env.localToday - 3),
       a.focus_time_for_date env (env.localToday - 2),
       a.focus_time_for_date env (env.localToday - 1),
       a.focus_time_for_date env (env.localToday - 0)] := rfl

theorem daily_focus_getD (a : App) (env : Env) (i : Nat) (hi : i < 7) :
    (a.daily_focus_data env).getD i 0 =
      a.focus_time_for_date env (env.localToday - 6 + i) := by
  rw [daily_focus_data_eq]
  interval_cases i <;>
    simp only [List.getD_cons_zero, List.getD_cons_succ] <;>
    congr 1 <;> push_cast <;> ring

theorem daily_focus_length (a : App) (env : Env) :
    (a.daily_focus_data env).length = 7 := by
  rw [daily_focus_data_eq]
  rfl

theorem focus_time_zero (a : App) (env : Env) (d : Int)
    (h : ∀ s ∈ a.sessions_cache, ¬env.localDate s.started_at = d) :
    a.focus_time_for_date env d = 0 := by
  unfold App.focus_time_for_date
  have hnil : a.sessions_cache.filter
      (fun s => decide (env.localDate s.started_at = d)) = [] := by
    rw [List.filter_eq_nil_iff]
    intro s hs
    simpa using h s hs
  rw [hnil]
  rfl

/-! ## Concrete scenarios -/

/-- Environment where both clocks read `t` seconds and storage works. -/
def envAt (t : Nat) : Env :=
  { now := t, utcNow := t, freshId := 0, saveOk := true, loadOk := true,
    localDate := fun _ => 0, localToday := 0 }

/-- `envAt` with a failing storage write. -/
def envNoSaveAt (t : Nat) : Env := { envAt t with saveOk := false }

/-- Start the default app (25/5/15/4), type the task "w" and confirm at
`t = 0`: a work interval is running. -/
def startSteps : List (Action × Env) :=
  [(.Input 'w', envAt 0), (.Confirm, envAt 0)]

/-- The running work interval produced by `startSteps`. -/
def runningApp : App := (App.run (App.new 25 5 15 4 [] true) startSteps).1

theorem runningApp_reachable : Reachable runningApp :=
  Reachable.step _ .Confirm (envAt 0)
    (Reachable.step _ (.Input 'w') (envAt 0)
      (Reachable.init 25 5 15 4 [] true))

/-- A `WorkFinished` state with the default configuration
(`sessions_until_long_break = 4`) and `n` completed work sessions. -/
def finishedApp (n : Nat) : App :=
  { state := .WorkFinished, should_quit := false,
    total_duration_secs := 1500, remaining_secs := 0,
    task_description := "w", session_start := some 0, pause_start := none,
    storage := [], pomodoro_started_at := some 0, current_view := .Timer,
    session_filter := .Week, sessions_cache := [], history_selected := 0,
    timer_mode := .Work, work_duration_secs := 1500,
    short_break_secs := 300, long_break_secs := 900,
    sessions_until_long_break := 4, work_sessions_completed := n }

/-- Concrete local-date conversion (UTC day number) used in the filtering
counterexample. -/
def dayOfTimestamp (ts : Nat) : Int := (ts : Int) / 86400

/-! ## Claim theorems -/

/-- C1: pause/resume time accounting.  From any running work interval with
`session_start = s0`, pausing at `ep`, resuming at `er` and ticking at `et`
(clock monotone, interval not yet complete) leaves the timer running with
elapsed time `(ep - s0) + (et - er)` — the active elapsed time at the pause
plus the time spent running after the resume, the wall-clock pause delay
`er - ep` contributing nothing (the resume handler shifts `session_start`
forward by the pause duration). -/
theorem pause_resume_accounting (a : App) (s0 ep er et : Nat)
    (envp envr envt : Env)
    (hst : a.state = .Running) (hm : a.timer_mode = .Work)
    (hss : a.session_start = some s0)
    (hep : envp.now = ep) (her : envr.now = er) (het : envt.now = et)
    (h1 : s0 ≤ ep) (h2 : ep ≤ er) (h3 : er ≤ et)
    (h4 : (ep - s0) + (et - er) < a.total_duration_secs) :
    ((((a.handle_action (.Input ' ') envp).app.handle_action
        (.Input ' ') envr).app.handle_action .Tick envt).app.state =
        .Running ∧
     (((a.handle_action (.Input ' ') envp).app.handle_action
        (.Input ' ') envr).app.handle_action .Tick envt).app.elapsed_secs =
        (ep - s0) + (et - er)) := by
  obtain ⟨st, sq, tot, rem, task, ss, ps, stor, pom, cv, sf, sc, hsel, tm,
    wd, sb, lb, sul, wsc⟩ := a
  simp only at hst hm hss h4
  subst hst hm hss hep her het
  simp only [App.handle_action, App.update_timer, App.elapsed_secs, noEffect]
  norm_num
  rw [if_neg (by omega)]
  constructor
  · rfl
  · simp only [App.elapsed_secs]
    omega

/-- Witness for C1, instantiating the spec's concrete scenario 2: start at
`t = 0`, pause at `t = 600`, resume at `t = 900`, tick at `t = 901` — the
elapsed time is `601`, not `901`. -/
theorem pause_resume_accounting_check :
    ((((runningApp.handle_action (.Input ' ') (envAt 600)).app.handle_action
        (.Input ' ') (envAt 900)).app.handle_action .Tick
        (envAt 901)).app.state = .Running ∧
     (((runningApp.handle_action (.Input ' ') (envAt 600)).app.handle_action
        (.Input ' ') (envAt 900)).app.handle_action .Tick
        (envAt 901)).app.elapsed_secs = 601) := by
  have h := pause_resume_accounting runningApp 0 600 900 901 (envAt 600)
    (envAt 900) (envAt 901) rfl rfl rfl rfl rfl rfl (by decide) (by decide)
    (by decide) (by decide)
  simpa using h

/-- C2: a step hands a record to storage iff the (trimmed) task is
non-empty and a work interval leaves `Running`/`Paused` by stop, quit, or a
completing tick; and no step of a break interval (`timer_mode ≠ Work`) ever
hands a record to storage. -/
theorem work_interval_persistence (a : App) (ha : Reachable a)
    (action : Action) (env : Env) :
    ((a.handle_action action env).saved ≠ [] ↔
       ¬rustTrim a.task_description = "" ∧
       ((a.state = .Running ∧ a.timer_mode = .Work ∧
           ((∃ c, action = .Input c ∧
               (c = 'r' ∨ c = 'R' ∨ c = 'q' ∨ c = 'Q')) ∨
            (action = .Tick ∧ ∃ s, a.session_start = some s ∧
               a.total_duration_secs ≤ env.now - s))) ∨
        (a.state = .Paused ∧
           ∃ c, action = .Input c ∧
             (c = 'r' ∨ c = 'R' ∨ c = 'q' ∨ c = 'Q')))) ∧
    (¬a.timer_mode = .Work → (a.handle_action action env).saved = []) := by
  have hInv := runInv_reachable a ha
  refine ⟨saved_characterization a action env hInv, ?_⟩
  intro hm
  by_contra hne
  rcases (saved_characterization a action env hInv).mp hne with ⟨-, h | h⟩
  · exact hm h.2.1
  · exact hm (hInv.2 h.1).1

/-- Witness for C2: stopping the concrete running work interval hands a
record to storage. -/
theorem work_interval_persistence_check :
    (runningApp.handle_action (.Input 'r') (envAt 10)).saved ≠ [] :=
  (work_interval_persistence runningApp runningApp_reachable (.Input 'r')
      (envAt 10)).1.mpr
    ⟨by decide, Or.inl ⟨rfl, rfl, Or.inl ⟨'r', rfl, Or.inl rfl⟩⟩⟩

/-- C3: a `Tick` in `Running(Work)` with `elapsed ≥ total` (non-strict)
moves the phase to `WorkFinished`, hands to storage a record with the full
`total_duration_secs` as `duration_worked` and `completed = true`, increments
`work_sessions_completed` by exactly one, and (when the write succeeds)
appends that record to the store. -/
theorem work_completion_on_tick (a : App) (env : Env) (s p : Nat)
    (hst : a.state = .Running) (hm : a.timer_mode = .Work)
    (hss : a.session_start = some s)
    (hpom : a.pomodoro_started_at = some p)
    (htask : ¬rustTrim a.task_description = "")
    (hdone : a.total_duration_secs ≤ env.now - s) :
    (a.handle_action .Tick env).app.state = .WorkFinished ∧
    (a.handle_action .Tick env).saved =
      [Session.new env.freshId a.task_description p
        a.total_duration_secs true] ∧
    (a.handle_action .Tick env).app.work_sessions_completed =
      a.work_sessions_completed + 1 ∧
    (env.saveOk = true →
      (a.handle_action .Tick env).app.storage =
        a.storage ++ [Session.new env.freshId a.task_description p
          a.total_duration_secs true]) := by
  obtain ⟨st, sq, tot, rem, task, ss, ps, stor, pom, cv, sf, sc, hsel, tm,
    wd, sb, lb, sul, wsc⟩ := a
  simp only at hst hm hss hpom htask hdone
  subst hst hm hss hpom
  by_cases hsk : env.saveOk = true <;>
    simp [App.handle_action, App.update_timer, App.save_current_session,
      App.refresh_sessions, Session.new, noEffect, hdone, htask, hsk]

/-- Witness for C3, instantiating the spec's concrete scenario 1 at the
exact boundary `t = 1500 = work_duration` (exercising the non-strict
comparison). -/
theorem work_completion_on_tick_check :
    (runningApp.handle_action .Tick (envAt 1500)).app.state =
        .WorkFinished ∧
    (runningApp.handle_action .Tick (envAt 1500)).saved =
      [Session.new (envAt 1500).freshId runningApp.task_description 0
        runningApp.total_duration_secs true] ∧
    (runningApp.handle_action .Tick (envAt 1500)).app.work_sessions_completed
        = runningApp.work_sessions_completed + 1 ∧
    ((envAt 1500).saveOk = true →
      (runningApp.handle_action .Tick (envAt 1500)).app.storage =
        runningApp.storage ++
          [Session.new (envAt 1500).freshId runningApp.task_description 0
            runningApp.total_duration_secs true]) :=
  work_completion_on_tick runningApp (envAt 1500) 0 0 rfl rfl rfl rfl
    (by decide) (by decide)

/-- C4: the break-start key in `WorkFinished` selects `LongBreak` exactly
when `work_sessions_completed ≥ sessions_until_long_break` and then resets
the counter to 0; otherwise it selects `ShortBreak` and leaves the counter
unchanged; and under every step that is not such a long-break selection the
counter is monotonically non-decreasing. -/
theorem break_selection_and_counter :
    (∀ (a : App) (env : Env) (c : Char), a.state = .WorkFinished →
       (c = 'b' ∨ c = 'B') →
       ((a.sessions_until_long_break ≤ a.work_sessions_completed →
           (a.handle_action (.Input c) env).app.timer_mode = .LongBreak ∧
           (a.handle_action (.Input c) env).app.work_sessions_completed =
             0) ∧
        (a.work_sessions_completed < a.sessions_until_long_break →
           (a.handle_action (.Input c) env).app.timer_mode = .ShortBreak ∧
           (a.handle_action (.Input c) env).app.work_sessions_completed =
             a.work_sessions_completed))) ∧
    (∀ (a : App) (action : Action) (env : Env),
       ¬(a.state = .WorkFinished ∧ ∃ c, action = .Input c ∧
           (c = 'b' ∨ c = 'B') ∧
           a.sessions_until_long_break ≤ a.work_sessions_completed) →
       a.work_sessions_completed ≤
         (a.handle_action action env).app.work_sessions_completed) := by
  constructor
  · intro a env c hst hc
    obtain ⟨st, sq, tot, rem, task, ss, ps, stor, pom, cv, sf, sc, hsel, tm,
      wd, sb, lb, sul, wsc⟩ := a
    simp only at hst
    subst hst
    simp only [App.handle_action, App.start_break, noEffect]
    rw [if_pos hc]
    split_ifs with h <;> constructor <;> intro h' <;> simp_all <;> omega
  · exact wsc_monotone

/-- Witness for C4, instantiating the spec's concrete scenario 3 with
`sessions_until_long_break = 4`: after the 4th completion the break is long
and the counter resets to 0; after the 5th completion (counter 1) the break
is short and the counter is unchanged. -/
theorem break_selection_and_counter_check :
    ((finishedApp 4).handle_action (.Input 'b') (envAt 0)).app.timer_mode =
        .LongBreak ∧
    ((finishedApp 4).handle_action (.Input 'b')
        (envAt 0)).app.work_sessions_completed = 0 ∧
    ((finishedApp 1).handle_action (.Input 'b') (envAt 0)).app.timer_mode =
        .ShortBreak ∧
    ((finishedApp 1).handle_action (.Input 'b')
        (envAt 0)).app.work_sessions_completed = 1 := by
  have h4 := (break_selection_and_counter.1 (finishedApp 4) (envAt 0) 'b'
    rfl (Or.inl rfl)).1 (by decide)
  have h1 := (break_selection_and_counter.1 (finishedApp 1) (envAt 0) 'b'
    rfl (Or.inl rfl)).2 (by decide)
  exact ⟨h4.1, h4.2, h1.1, h1.2⟩

/-- C5: in every reachable state, `remaining_secs` lies in
`[0, total_duration_secs]` (the lower bound is inherent to the `Nat`
embedding of the `u32`; the upper bound is the inductive invariant). -/
theorem remaining_secs_in_range (a : App) (h : Reachable a) :
    0 ≤ a.remaining_secs ∧ a.remaining_secs ≤ a.total_duration_secs :=
  ⟨Nat.zero_le _, remInv_reachable a h⟩

/-- Witness for C5 at the concrete running state. -/
theorem remaining_secs_in_range_check :
    0 ≤ runningApp.remaining_secs ∧
      runningApp.remaining_secs ≤ runningApp.total_duration_secs :=
  remaining_secs_in_range runningApp runningApp_reachable

/-- C6 counterexample: the claim says a failed persist on the stop path
still advances the phase (to `Idle`).  In the code the `?` on
`save_current_session` returns before `reset()` runs: stopping the running
work interval with a failing store reports the error and leaves the state
entirely unchanged — still `Running`, not `Idle`. -/
theorem stop_persist_failure_not_advanced :
    (runningApp.handle_action (.Input 'r') (envNoSaveAt 10)).ok = false ∧
    (runningApp.handle_action (.Input 'r') (envNoSaveAt 10)).app =
      runningApp ∧
    ¬(runningApp.handle_action (.Input 'r') (envNoSaveAt 10)).app.state =
      .Idle ∧
    (runningApp.handle_action (.Input 'r') (envNoSaveAt 10)).app.state =
      .Running :=
  ⟨rfl, rfl, by decide, rfl⟩

/-- C6 (amended): invalid intents are ignored no-ops, and the only error
exits are persist failures on the stop/quit keys in `Running(Work)`/`Paused`
— in which case the state is returned entirely unchanged (phase not
advanced, quit flag not set).  A persist failure on the session-finish
`Tick`, by contrast, is swallowed: the phase still advances to
`WorkFinished`, the counter increments, the call reports success, and the
record is lost (store unchanged). -/
theorem failure_semantics_amended :
    (∀ (a : App) (action : Action) (env : Env),
       (a.handle_action action env).ok = false →
         env.saveOk = false ∧ (a.handle_action action env).app = a ∧
         ((a.state = .Running ∧ a.timer_mode = .Work) ∨ a.state = .Paused) ∧
         (∃ c, action = .Input c ∧
           (c = 'r' ∨ c = 'R' ∨ c = 'q' ∨ c = 'Q'))) ∧
    (∀ (a : App) (env : Env) (s p : Nat),
       a.state = .Running → a.timer_mode = .Work →
       a.session_start = some s → a.pomodoro_started_at = some p →
       ¬rustTrim a.task_description = "" →
       a.total_duration_secs ≤ env.now - s → env.saveOk = false →
         (a.handle_action .Tick env).app.state = .WorkFinished ∧
         (a.handle_action .Tick env).ok = true ∧
         (a.handle_action .Tick env).app.work_sessions_completed =
           a.work_sessions_completed + 1 ∧
         (a.handle_action .Tick env).app.storage = a.storage) ∧
    (∀ (a : App) (action : Action) (env : Env),
       (action = .Start ∨ action = .Pause ∨ action = .Resume ∨
         action = .Stop ∨ action = .Quit ∨ action = .CycleFilter ∨
         action = .None) →
       a.handle_action action env = noEffect a) ∧
    (∀ (a : App) (env : Env), ¬a.state = .Running →
       a.handle_action .Tick env = noEffect a) := by
  refine ⟨handle_action_error_spec, ?_, unhandled_action_noop,
    tick_outside_running_noop⟩
  intro a env s p hst hm hss hpom htask hdone hsk
  obtain ⟨st, sq, tot, rem, task, ss, ps, stor, pom, cv, sf, sc, hsel, tm,
    wd, sb, lb, sul, wsc⟩ := a
  simp only at hst hm hss hpom htask hdone
  subst hst hm hss hpom
  simp [App.handle_action, App.update_timer, App.save_current_session,
    App.refresh_sessions, noEffect, hdone, htask, hsk]

/-- Witness for C6 (amended): a completing tick with a failing store still
advances to `WorkFinished`, reports success, increments the counter, and
loses the record. -/
theorem failure_semantics_amended_check :
    (runningApp.handle_action .Tick (envNoSaveAt 1500)).app.state =
        .WorkFinished ∧
    (runningApp.handle_action .Tick (envNoSaveAt 1500)).ok = true ∧
    (runningApp.handle_action .Tick
        (envNoSaveAt 1500)).app.work_sessions_completed =
      runningApp.work_sessions_completed + 1 ∧
    (runningApp.handle_action .Tick (envNoSaveAt 1500)).app.storage =
      runningApp.storage :=
  failure_semantics_amended.2.1 runningApp (envNoSaveAt 1500) 0 0 rfl rfl
    rfl rfl (by decide) (by decide) rfl

/-- C7 counterexample: the claim bounds the `Week` window above by the
reference date, but the code only checks `local date ≥ today - 7`.  A
record whose local date is 8 days in the future is returned by the `Week`
filter although its date is outside `[D-7, D]`. -/
theorem week_filter_includes_future :
    display_sessions_filtered
        [{ id := 0, task := "t", started_at := 8 * 86400,
           duration_secs := 10, completed := true }] .Week dayOfTimestamp 0 =
      [{ id := 0, task := "t", started_at := 8 * 86400,
         duration_secs := 10, completed := true }] ∧
    ¬((0 : Int) - 7 ≤ dayOfTimestamp (8 * 86400) ∧
        dayOfTimestamp (8 * 86400) ≤ 0) :=
  ⟨rfl, by decide⟩

/-- C7 (amended): membership in the filtered list is exactly: `Today` keeps
the records whose host-local date equals the reference date, `Week` keeps
those with local date `≥ reference - 7` (no upper bound; this coincides
with `[D-7, D]` whenever no record is dated after `D`), `All` keeps
everything — both for the CLI `display_sessions` filter and for
`App::filtered_sessions`. -/
theorem window_filter_membership :
    (∀ (sessions : List Session) (filter : SessionFilter)
        (localDate : Nat → Int) (today : Int) (s : Session),
       s ∈ display_sessions_filtered sessions filter localDate today ↔
         s ∈ sessions ∧
           (match filter with
            | .Today => localDate s.started_at = today
            | .Week => today - 7 ≤ localDate s.started_at
            | .All => True)) ∧
    (∀ (a : App) (env : Env) (s : Session),
       s ∈ a.filtered_sessions env ↔
         s ∈ a.sessions_cache ∧
           (match a.session_filter with
            | .Today => env.localDate s.started_at = env.localToday
            | .Week => env.localToday - 7 ≤ env.localDate s.started_at
            | .All => True)) := by
  constructor
  · intro sessions filter localDate today s
    unfold display_sessions_filtered session_matches_filter
    cases filter <;> simp [List.mem_filter]
  · intro a env s
    unfold App.filtered_sessions session_matches_filter
    cases hf : a.session_filter <;> simp [List.mem_filter, hf]

/-- C8: `daily_focus_data` always returns exactly 7 entries, oldest to
newest — entry `i` is the total `duration_secs` over the full unfiltered
cache for the calendar day `reference - 6 + i` — independently of the
active window filter, and an entry is 0 when no record has that local
date. -/
theorem daily_totals_spec (a : App) (env : Env) :
    (a.daily_focus_data env).length = 7 ∧
    (∀ i : Nat, i < 7 →
      (a.daily_focus_data env).getD i 0 =
        a.focus_time_for_date env (env.localToday - 6 + i)) ∧
    (∀ d : Int, a.focus_time_for_date env d =
      ((a.sessions_cache.filter
          (fun s => decide (env.localDate s.started_at = d))).map
        (fun s => s.duration_secs)).sum) ∧
    (∀ f : SessionFilter,
      App.daily_focus_data { a with session_filter := f } env =
        a.daily_focus_data env) ∧
    (∀ i : Nat, i < 7 →
      (∀ s ∈ a.sessions_cache,
        ¬env.localDate s.started_at = env.localToday - 6 + i) →
      (a.daily_focus_data env).getD i 0 = 0) :=
  ⟨daily_focus_length a env, daily_focus_getD a env, fun d => rfl,
   fun f => rfl,
   fun i hi h => by
     rw [daily_focus_getD a env i hi]
     exact focus_time_zero a env _ h⟩

/-- An environment whose local-date view is the UTC day number, reference
date day 0. -/
def statsEnv : Env :=
  { now := 0, utcNow := 0, freshId := 0, saveOk := true, loadOk := true,
    localDate := dayOfTimestamp, localToday := 0 }

/-- Witness for C8: the newest entry (index 6) of the 7-day series of a
store holding one 120-second session dated day 0 is that day's total. -/
theorem daily_totals_spec_check :
    ((App.new 25 5 15 4
        [{ id := 0, task := "t", started_at := 0, duration_secs := 120,
           completed := true }] true).daily_focus_data statsEnv).getD 6 0 =
      (App.new 25 5 15 4
        [{ id := 0, task := "t", started_at := 0, duration_secs := 120,
           completed := true }] true).focus_time_for_date statsEnv
        (statsEnv.localToday - 6 + 6) :=
  (daily_totals_spec _ statsEnv).2.1 6 (by decide)

/-- C9: the summary statistics are: count = length, completed = number of
records with `completed = true`, interrupted = count - completed, total =
sum of `duration_secs`, and average = total / count rounded down (0 when
the list is empty). -/
theorem summary_stats_spec (sessions : List Session) :
    (SessionStats.from_sessions sessions).total_sessions =
        sessions.length ∧
    (SessionStats.from_sessions sessions).completed_sessions =
      sessions.countP (fun s => s.completed) ∧
    (SessionStats.from_sessions sessions).interrupted_sessions =
      sessions.length - sessions.countP (fun s => s.completed) ∧
    (SessionStats.from_sessions sessions).total_focus_time_secs =
      (sessions.map (fun s => s.duration_secs)).sum ∧
    (SessionStats.from_sessions sessions).average_duration_secs =
      (if sessions.length = 0 then 0
       else (sessions.map (fun s => s.duration_secs)).sum /
         sessions.length) := by
  refine ⟨rfl, ?_, ?_, rfl, ?_⟩
  · unfold SessionStats.from_sessions
    simp [List.countP_eq_length_filter]
  · unfold SessionStats.from_sessions
    simp [List.countP_eq_length_filter]
  · simp only [SessionStats.from_sessions]
    rcases Nat.eq_zero_or_pos sessions.length with h | h
    · simp [h]
    · rw [if_pos h, if_neg (Nat.pos_iff_ne_zero.mp h)]

/-- C10: at-most-once persistence per work interval.  (a) no step hands
more than one record to storage; (b) the persistence potential of a state —
1 while the current work interval (running or paused, quit flag unset) can
still persist, 0 otherwise — never exceeds 1; (c) at every successful step
from a live state the potential pays for the records handed out, and only
the guarded work-start (`EnteringTask` + `Confirm`) can raise it, by one.
Summed over any run (which stops at a quit or a propagated error), a single
work interval therefore hands out at most one record: in particular the
completing tick's record cannot be followed by a second persist of the same
interval from `WorkFinished`, and stop/quit persist at most once because
they leave the live states. -/
theorem at_most_once_persistence :
    (∀ (a : App) (action : Action) (env : Env),
       (a.handle_action action env).saved.length ≤ 1) ∧
    (∀ a : App, persistBudget a ≤ 1) ∧
    (∀ (a : App) (action : Action) (env : Env),
       a.should_quit = false →
       (a.handle_action action env).ok = true →
       (a.handle_action action env).saved.length +
           persistBudget (a.handle_action action env).app ≤
         persistBudget a +
           (if a.state = .EnteringTask ∧ action = .Confirm then 1
            else 0)) :=
  ⟨handle_action_saved_length,
   fun a => by unfold persistBudget; split_ifs <;> omega,
   persistBudget_step⟩

/-- Witness for C10: the potential inequality at the concrete running
state under a stop key. -/
theorem at_most_once_persistence_check :
    (runningApp.handle_action (.Input 'r') (envAt 10)).saved.length +
        persistBudget (runningApp.handle_action (.Input 'r')
          (envAt 10)).app ≤
      persistBudget runningApp +
        (if runningApp.state = .EnteringTask ∧
            (Action.Input 'r') = .Confirm then 1 else 0) :=
  at_most_once_persistence.2.2 runningApp (.Input 'r') (envAt 10) rfl rfl

end Tomatocrab
